import Mathlib

/-!
Verification development for the EngAI college-planner core
(`planner.py`): prerequisite filtering, interest matching, priority
scoring, the multi-term greedy allocator, and the fallback workload
estimator.  Python strings are modelled over `List Char` with
structural implementations of lower-casing, trimming, splitting and
substring search so that every definition evaluates by kernel
reduction.  Python's stable `list.sort` is modelled by a stable
insertion sort: any two stable sorts with the same total comparator
agree, so the model is observationally identical.
-/

namespace EngAI

/-- Lower-casing of a string, character by character (model of Python
`str.lower`, which on the catalog's ASCII data agrees with
`Char.toLower`). -/
def lowerStr (s : String) : String := String.mk (s.data.map Char.toLower)

/-- Remove leading and trailing whitespace from a character list
(model of Python `str.strip`). -/
def trimChars (l : List Char) : List Char :=
  ((l.dropWhile Char.isWhitespace).reverse.dropWhile Char.isWhitespace).reverse

/-- Trim a string (model of Python `str.strip`). -/
def trimStr (s : String) : String := String.mk (trimChars s.data)

/-- Split a character list at every comma (model of Python
`str.split(',')`); the empty input gives one empty field. -/
def splitCommaChars : List Char → List (List Char)
  | [] => [[]]
  | c :: rest =>
    let r := splitCommaChars rest
    if c = ',' then [] :: r
    else
      match r with
      | [] => [[c]]
      | h :: t => (c :: h) :: t

/-- Split a string on commas. -/
def splitComma (s : String) : List String := (splitCommaChars s.data).map String.mk

/-- Substring search on character lists: `isSubstring t s` holds iff
`t` occurs contiguously in `s` (model of Python `t in s`). -/
def isSubstring (t s : List Char) : Bool :=
  match s with
  | [] => t.isEmpty
  | _ :: s' => t.isPrefixOf s || isSubstring t s'

/-- String-level substring test: `substrOf needle hay` models Python
`needle in hay`. -/
def substrOf (needle hay : String) : Bool := isSubstring needle.data hay.data

/-- Single-quote character, used to build the reason strings of
`suggest_ai_electives` exactly as the Python f-strings do. -/
def sq : String := String.singleton (Char.ofNat 39)

/-- Stable insertion of an element into a list: `a` goes before the
first `b` with `le a b`. -/
def insertLe {α : Type} (le : α → α → Bool) (a : α) : List α → List α
  | [] => [a]
  | b :: l => if le a b then a :: b :: l else b :: insertLe le a l

/-- Stable sort by the Boolean comparator `le` (model of Python's
stable `list.sort`; stability plus a total comparator determines the
output uniquely, so insertion sort is a faithful model of Timsort). -/
def sortStable {α : Type} (le : α → α → Bool) : List α → List α
  | [] => []
  | a :: l => insertLe le a (sortStable le l)

/-- One catalog course record (`courses.json` entry), with the
defaults the Python code applies at every read site:
`level="unknown"`, `credits=3`, `description=""`, empty prerequisite
and tag lists. -/
structure CourseInfo where
  level : String := "unknown"
  credits : Nat := 3
  description : String := ""
  prerequisites : List String := []
  tags : List String := []
deriving DecidableEq

/-- The course catalog: an insertion-ordered mapping from course name
to record, modelled as an association list. -/
abbrev Catalog := List (String × CourseInfo)

/-- The career-path table: lowercase path name to ordered course-name
list. -/
abbrev CareerPaths := List (String × List String)

/-- Prerequisite check shared by `suggest_next_courses` (planner.py
line 48) and `generate_semester_schedule` (line 176): the course is
eligible iff every prerequisite name is a member of `satisfied`. -/
def isEligible (info : CourseInfo) (satisfied : List String) : Bool :=
  info.prerequisites.all (fun p => satisfied.contains p)

/-- Keyword extraction of `suggest_ai_electives` (planner.py line 75):
split the interests text on commas, keep tokens whose trim is
non-empty, lower-case the trimmed tokens. -/
def parseKeywords (interests : String) : List String :=
  ((splitComma interests).filter (fun t => !(trimStr t).data.isEmpty)).map
    (fun t => lowerStr (trimStr t))

/-- Reason string for a tag match (planner.py line 87). -/
def tagReason (kw : String) : String := "matches " ++ sq ++ kw ++ sq ++ " tag"

/-- Reason string for a course-name match (planner.py line 91). -/
def nameReason (kw : String) : String := "course name contains " ++ sq ++ kw ++ sq

/-- Reason string for a description match (planner.py line 95). -/
def descReason (kw : String) : String := "description contains " ++ sq ++ kw ++ sq

/-- The if/elif/elif chain of `suggest_ai_electives` (planner.py lines
85-95): for one keyword, record the tag-match reason, else the
name-substring reason, else the description-substring reason, else
nothing. -/
def keywordReasons (name : String) (info : CourseInfo) (kw : String) : List String :=
  if (info.tags.map lowerStr).contains kw then [tagReason kw]
  else if substrOf kw (lowerStr name) then [nameReason kw]
  else if substrOf kw (lowerStr info.description) then [descReason kw]
  else []

/-- All reasons a course collects, keywords processed in order
(planner.py line 84). -/
def courseMatches (name : String) (info : CourseInfo) (keywords : List String) : List String :=
  keywords.flatMap (keywordReasons name info)

/-- One elective suggestion record (planner.py lines 98-105). -/
structure Suggestion where
  name : String
  level : String
  credits : Nat
  description : String
  «matches» : List String
  match_count : Nat
deriving DecidableEq

/-- `suggest_ai_electives(interests)` (planner.py lines 64-110):
collect every catalog course with at least one reason, then stable-sort
by descending match count. -/
def suggest_ai_electives (catalog : Catalog) (interests : String) : List Suggestion :=
  let keywords := parseKeywords interests
  let suggestions := catalog.filterMap (fun p =>
    let ms := courseMatches p.1 p.2 keywords
    if ms.isEmpty then none
    else some { name := p.1, level := p.2.level, credits := p.2.credits,
                description := p.2.description, «matches» := ms, match_count := ms.length })
  sortStable (fun a b => decide (b.match_count ≤ a.match_count)) suggestions

/-- Target level for an academic year (planner.py line 191):
1 maps to freshman, 2 to sophomore, 3 to junior, everything else to
senior. -/
def targetLevel (year : Nat) : String :=
  if year = 1 then "freshman"
  else if year = 2 then "sophomore"
  else if year = 3 then "junior"
  else "senior"

/-- Priority accumulation of `generate_semester_schedule` (planner.py
lines 178-193): start from 0, add the career term when the name is in
the career list, add 50 per interest match when present, add 200 on a
level fit. -/
def priorityFor (career_priorities : List String) (interest_electives : List (String × Nat))
    (year : Nat) (name : String) (info : CourseInfo) : Int :=
  let p0 : Int := 0
  let p1 := if career_priorities.contains name
    then p0 + (1000 - (career_priorities.indexOf name : Int)) else p0
  let p2 := match List.lookup name interest_electives with
    | some mc => p1 + (mc : Int) * 50
    | none => p1
  let p3 := if info.level = targetLevel year then p2 + 200 else p2
  p3

/-- Career-relevance score as the spec words it: `1000 - indexInList`
when the name appears in the active career path's priority list, else
0. -/
def careerComponent (career_priorities : List String) (name : String) : Int :=
  if name ∈ career_priorities then 1000 - (career_priorities.indexOf name : Int) else 0

/-- Interest-relevance score as the spec words it: match count times
50 when the course appears in the interest-suggestion map, else 0. -/
def interestComponent (interest_electives : List (String × Nat)) (name : String) : Int :=
  match List.lookup name interest_electives with
  | some mc => (mc : Int) * 50
  | none => 0

/-- Level-fit score as the spec words it: a flat 200 when the course's
level equals the target level of the year, else 0. -/
def levelComponent (year : Nat) (level : String) : Int :=
  if level = targetLevel year then 200 else 0

/-- An eligible candidate as built at planner.py lines 195-203. -/
structure Candidate where
  name : String
  level : String
  credits : Nat
  description : String
  priority : Int
  tags : List String
  career_relevant : Bool
deriving DecidableEq

/-- A course entry of a term plan (planner.py lines 215-221). -/
structure CourseEntry where
  name : String
  credits : Nat
  description : String
  career_relevant : Bool
  tags : List String
deriving DecidableEq

/-- One term of the produced schedule (planner.py lines 228-235). -/
structure TermPlan where
  semester : Nat
  year : Nat
  term : String
  courses : List CourseEntry
  total_credits : Nat
  available_courses_count : Nat
deriving DecidableEq

/-- Request-constant data of one `generate_semester_schedule` run. -/
structure Ctx where
  catalog : Catalog
  career_priorities : List String
  careerGiven : Bool
  interest_electives : List (String × Nat)
  completed : List String
  all_courses : List String
deriving DecidableEq

/-- Candidate record for one course name (planner.py lines 195-203). -/
def mkCandidate (ctx : Ctx) (year : Nat) (name : String) (info : CourseInfo) : Candidate :=
  { name := name, level := info.level, credits := info.credits,
    description := info.description,
    priority := priorityFor ctx.career_priorities ctx.interest_electives year name info,
    tags := info.tags,
    career_relevant := ctx.careerGiven && ctx.career_priorities.contains name }

/-- Candidate test for one course name (planner.py lines 165-203):
skip names in `completed` or `planned`, skip names missing from the
catalog, keep a prerequisite-eligible course with its priority. -/
def candidateFun (ctx : Ctx) (planned : List String) (year : Nat) (name : String) :
    Option Candidate :=
  if ctx.completed.contains name || planned.contains name then none
  else
    match List.lookup name ctx.catalog with
    | none => none
    | some info =>
      if isEligible info planned then some (mkCandidate ctx year name info)
      else none

/-- The available-candidate list of one term (planner.py lines
163-203), walking the college's course list in order. -/
def candidatesFor (ctx : Ctx) (planned : List String) (year : Nat) : List Candidate :=
  ctx.all_courses.filterMap (candidateFun ctx planned year)

/-- Course entry taken from an accepted candidate (planner.py lines
215-221). -/
def mkEntry (c : Candidate) : CourseEntry :=
  { name := c.name, credits := c.credits, description := c.description,
    career_relevant := c.career_relevant, tags := c.tags }

/-- The greedy selection loop of one term (planner.py lines 209-226):
walk the sorted candidates; accept one when the accumulated credits
plus its credits stay at most 18, adding its name to `planned`; after
each candidate (accepted or skipped) stop once the accumulated credits
reach 12.  Returns the accepted entries, the final credit total and
the grown `planned`. -/
def selectCourses : List Candidate → Nat → List String → List CourseEntry × Nat × List String
  | [], total, planned => ([], total, planned)
  | c :: rest, total, planned =>
    if total + c.credits ≤ 18 then
      let total' := total + c.credits
      let planned' := c.name :: planned
      if 12 ≤ total' then ([mkEntry c], total', planned')
      else
        let r := selectCourses rest total' planned'
        (mkEntry c :: r.1, r.2.1, r.2.2)
    else
      if 12 ≤ total then ([], total, planned)
      else selectCourses rest total planned

/-- Session label of a semester (planner.py line 160): Fall on odd
semester indices, Spring on even ones. -/
def termLabel (semester : Nat) : String :=
  if (semester - 1) % 2 = 0 then "Fall" else "Spring"

/-- Academic year of a semester (planner.py line 159). -/
def yearOf (semester : Nat) : Nat := (semester - 1) / 2 + 1

/-- Descending stable sort by priority (planner.py line 206). -/
def sortByPriority (l : List Candidate) : List Candidate :=
  sortStable (fun a b => decide (b.priority ≤ a.priority)) l

/-- One iteration of the semester loop (planner.py lines 157-235):
build and sort the candidates, run the greedy selection, emit the term
plan, and return the grown `planned` set. -/
def buildTerm (ctx : Ctx) (planned : List String) (semester : Nat) : TermPlan × List String :=
  let year := yearOf semester
  let available := candidatesFor ctx planned year
  let sel := selectCourses (sortByPriority available) 0 planned
  ({ semester := semester, year := year, term := termLabel semester,
     courses := sel.1, total_credits := sel.2.1,
     available_courses_count := available.length }, sel.2.2)

/-- The semester loop, `n` terms remaining, current 1-based semester
index, threading `planned` across terms. -/
def scheduleAux (ctx : Ctx) : Nat → Nat → List String → List TermPlan
  | 0, _, _ => []
  | n + 1, semester, planned =>
    let bt := buildTerm ctx planned semester
    bt.1 :: scheduleAux ctx n (semester + 1) bt.2

/-- Replay of the allocator's `planned` state: `plannedAfter ctx k`
is the planned set after the first `k` semesters (and hence before
semester `k + 1`); `plannedAfter ctx 0` is the initial
`set(completed)`. -/
def plannedAfter (ctx : Ctx) : Nat → List String
  | 0 => ctx.completed
  | k + 1 => (buildTerm ctx (plannedAfter ctx k) (k + 1)).2

/-- Python truthiness of the optional `career_path` argument: `None`
and the empty string are falsy. -/
def careerTruthy : Option String → Bool
  | none => false
  | some s => !s.data.isEmpty

/-- Career-priority list resolution (planner.py lines 143-145): a
truthy `career_path` whose lower-cased name is a key of the table
yields that table entry; anything else yields the empty list, with no
error of any kind. -/
def careerPrioritiesFor (career_paths : CareerPaths) (career_path : Option String) : List String :=
  match career_path with
  | none => []
  | some cp =>
    if cp.data.isEmpty then []
    else
      match List.lookup (lowerStr cp) career_paths with
      | some l => l
      | none => []

/-- The request context assembled at planner.py lines 139-153:
resolved career priorities, the interest-suggestion map (name to match
count), and the immutable inputs.  `planned` itself starts as
`set(completed)` (line 153) and is threaded by `scheduleAux`. -/
def mkCtx (catalog : Catalog) (career_paths : CareerPaths)
    (completed all_courses : List String) (career_path : Option String)
    (interests : String) : Ctx :=
  { catalog := catalog,
    career_priorities := careerPrioritiesFor career_paths career_path,
    careerGiven := careerTruthy career_path,
    interest_electives := (suggest_ai_electives catalog interests).map
      (fun s => (s.name, s.match_count)),
    completed := completed,
    all_courses := all_courses }

/-- `generate_semester_schedule` (planner.py lines 125-237). -/
def generate_semester_schedule (catalog : Catalog) (career_paths : CareerPaths)
    (completed : List String) (all_courses : List String) (career_path : Option String)
    (interests : String) (semesters : Nat) : List TermPlan :=
  scheduleAux (mkCtx catalog career_paths completed all_courses career_path interests)
    semesters 1 completed

/-- The fixed high-difficulty course list of `analyze_workload_basic`
(planner.py line 305). -/
def difficult_courses : List String :=
  ["Algorithms", "Operating Systems", "Machine Learning", "Artificial Intelligence"]

/-- The fixed moderate-difficulty course list (planner.py line 306). -/
def moderate_courses : List String :=
  ["Data Structures", "Database Systems", "Computer Networks"]

/-- Return shape of the fallback workload estimator (planner.py lines
333-341). -/
structure WorkloadInfo where
  difficulty_rating : Nat
  weekly_hours : String
  challenges : String
  tips : String
  balance_analysis : String
  total_credits : Nat
  method : String
deriving DecidableEq

/-- One iteration of the accumulation loop of
`analyze_workload_basic` (planner.py lines 311-320): for a
catalog-known course add its credits, and add 2 to the difficulty
counter for a high-difficulty name, 1 for a moderate one. -/
def workloadStep (catalog : Catalog) (acc : Nat × Nat) (name : String) : Nat × Nat :=
  match List.lookup name catalog with
  | none => acc
  | some info =>
    (acc.1 + info.credits,
      if difficult_courses.contains name then acc.2 + 2
      else if moderate_courses.contains name then acc.2 + 1
      else acc.2)

/-- The accumulated `(credit_count, difficulty_count)` pair of
`analyze_workload_basic`. -/
def workloadCounts (catalog : Catalog) (semester_courses : List String) : Nat × Nat :=
  semester_courses.foldl (workloadStep catalog) (0, 0)

/-- `analyze_workload_basic` (planner.py lines 301-341).  The Python
difficulty value `6 + difficulty_count * 0.5` is float arithmetic that
is exact on halves, so `int(...)` truncation equals
`6 + difficulty_count / 2` in natural division; the final rating is
`min(10, int(difficulty))` in every branch. -/
def analyze_workload_basic (catalog : Catalog) (semester_courses : List String) : WorkloadInfo :=
  let cc := (workloadCounts catalog semester_courses).1
  let dc := (workloadCounts catalog semester_courses).2
  let pair : Nat × String :=
    if 15 ≤ cc then (8, "25-30 hours")
    else if 12 ≤ cc then (6 + dc / 2, "20-25 hours")
    else (5, "15-20 hours")
  { difficulty_rating := min 10 pair.1,
    weekly_hours := pair.2,
    challenges := "Multiple challenging courses may overlap. Prioritize time management.",
    tips := "Start assignments early and maintain consistent study schedule.",
    balance_analysis := "Managing " ++ toString cc ++
      " credit hours. Balance varies based on course difficulty.",
    total_credits := cc,
    method := "Basic" }

/-- Summed credits of the catalog-known input courses, stated as the
spec words it (independently of the accumulation loop). -/
def creditSum (catalog : Catalog) (names : List String) : Nat :=
  (names.filterMap (fun n => (List.lookup n catalog).map CourseInfo.credits)).sum

/-- The difficulty counter, stated as the spec words it: over the
catalog-known input courses, a high-difficulty-listed name adds 2 and
a moderate-listed name adds 1. -/
def difficultySum (catalog : Catalog) (names : List String) : Nat :=
  ((names.filter (fun n => (List.lookup n catalog).isSome)).map
    (fun n =>
      if difficult_courses.contains n then 2
      else if moderate_courses.contains n then 1
      else 0)).sum

/-- Demo catalog of the spec's concrete scheduling scenario: course A
(freshman, 3 credits, no prerequisites) and course B (sophomore, 3
credits, prerequisite A). -/
def catAB : Catalog :=
  [("A", { level := "freshman", credits := 3, description := "a" }),
   ("B", { level := "sophomore", credits := 3, description := "b", prerequisites := ["A"] })]

/-- The course record of the spec's interest-matching scenario. -/
def netInfo : CourseInfo :=
  { level := "junior", credits := 3, description := "Intro to networking",
    tags := ["networking", "systems"] }

/-- Demo catalog of the spec's interest-matching scenario. -/
def catNet : Catalog := [("Computer Networks", netInfo)]

/-- Demo career-path table of the spec's career scenario. -/
def demoPaths : CareerPaths := [("backend", ["Databases", "Operating Systems"])]

/-- Demo catalog with an ordinary course and one whose credit value
exceeds the 18-credit cap. -/
def catMix : Catalog :=
  [("A", { level := "freshman", credits := 3, description := "a" }),
   ("X", { level := "senior", credits := 20, description := "x" })]

/-- Course entry produced for course A of the demo catalogs. -/
def entryA : CourseEntry :=
  { name := "A", credits := 3, description := "a", career_relevant := false, tags := [] }

/-- Course entry produced for course B of `catAB`. -/
def entryB : CourseEntry :=
  { name := "B", credits := 3, description := "b", career_relevant := false, tags := [] }

/-- First term of the schedule for `catAB` with A completed. -/
def termB1 : TermPlan :=
  { semester := 1, year := 1, term := "Fall", courses := [entryB],
    total_credits := 3, available_courses_count := 1 }

/-- First term of the schedule for `catAB` with only A offered. -/
def termA1 : TermPlan :=
  { semester := 1, year := 1, term := "Fall", courses := [entryA],
    total_credits := 3, available_courses_count := 1 }

/-- First term of the schedule for `catMix` with A and X offered: X
(20 credits) is skipped, A is taken. -/
def termA1X : TermPlan :=
  { semester := 1, year := 1, term := "Fall", courses := [entryA],
    total_credits := 3, available_courses_count := 2 }

/-- Membership after a stable insertion. -/
theorem mem_insertLe {α : Type} (le : α → α → Bool) (a x : α) :
    ∀ l : List α, x ∈ insertLe le a l ↔ x = a ∨ x ∈ l
  | [] => by simp [insertLe]
  | b :: t => by
    simp only [insertLe]
    by_cases h : le a b = true
    · simp [h]
    · rw [if_neg h]
      simp only [List.mem_cons, mem_insertLe le a x t]
      tauto

/-- A stable sort preserves membership. -/
theorem mem_sortStable {α : Type} (le : α → α → Bool) (x : α) :
    ∀ l : List α, x ∈ sortStable le l ↔ x ∈ l
  | [] => Iff.rfl
  | a :: t => by
    simp [sortStable, mem_insertLe, mem_sortStable le x t]

/-- A successful association-list lookup comes from an entry of the
list. -/
theorem lookup_mem {α β : Type} [BEq α] [LawfulBEq α] {k : α} {v : β} :
    ∀ {l : List (α × β)}, List.lookup k l = some v → (k, v) ∈ l
  | [], h => by simp [List.lookup] at h
  | (a, b) :: t, h => by
    by_cases hk : (k == a) = true
    · have hka : k = a := eq_of_beq hk
      subst hka
      simp [List.lookup, hk] at h
      subst h
      exact List.mem_cons_self _ _
    · have hk' : (k == a) = false := by simpa using hk
      simp only [List.lookup, hk'] at h
      exact List.mem_cons_of_mem _ (lookup_mem h)

/-- C5: `isEligible(c, S)` is true iff every prerequisite name on the
record is a member of `S`; a course with an empty prerequisite list is
eligible against any set; and eligibility is monotone: if `S ⊆ T` and
`c` is eligible against `S` then it is eligible against `T`. -/
theorem claim_C5 :
    (∀ (info : CourseInfo) (S : List String),
        isEligible info S = true ↔ ∀ p ∈ info.prerequisites, p ∈ S)
    ∧ (∀ (info : CourseInfo) (S : List String),
        info.prerequisites = [] → isEligible info S = true)
    ∧ (∀ (info : CourseInfo) (S T : List String),
        S ⊆ T → isEligible info S = true → isEligible info T = true) := by
  have hiff : ∀ (info : CourseInfo) (S : List String),
      isEligible info S = true ↔ ∀ p ∈ info.prerequisites, p ∈ S := by
    intro info S
    simp [isEligible, List.all_eq_true, List.elem_iff]
  refine ⟨hiff, ?_, ?_⟩
  · intro info S h
    rw [hiff]
    simp [h]
  · intro info S T hST h
    rw [hiff] at h ⊢
    exact fun p hp => hST (h p hp)

/-- Witness for C5 at a concrete input: the monotonicity part applied
to a record with prerequisite list `["A"]`, with `["A"] ⊆ ["A","B"]`. -/
theorem claim_C5_witness :
    isEligible { prerequisites := ["A"] } ["A", "B"] = true :=
  claim_C5.2.2 { prerequisites := ["A"] } ["A"] ["A", "B"] (by decide) (by decide)

/-- C6: the priority score is the sum of exactly the career, interest
and level components, each as the spec words it; in the backend
scenario, Databases gets career contribution 1000 and Operating
Systems 999; the target level derived from the year maps 1 to
freshman, 2 to sophomore, 3 to junior and everything from 4 on to
senior. -/
theorem claim_C6 :
    (∀ (cps : List String) (ie : List (String × Nat)) (year : Nat) (name : String)
        (info : CourseInfo),
        priorityFor cps ie year name info =
          careerComponent cps name + interestComponent ie name
            + levelComponent year info.level)
    ∧ careerComponent ["Databases", "Operating Systems"] "Databases" = 1000
    ∧ careerComponent ["Databases", "Operating Systems"] "Operating Systems" = 999
    ∧ targetLevel 1 = "freshman" ∧ targetLevel 2 = "sophomore"
    ∧ targetLevel 3 = "junior" ∧ (∀ y : Nat, 4 ≤ y → targetLevel y = "senior") := by
  refine ⟨?_, by decide, by decide, rfl, rfl, rfl, ?_⟩
  · intro cps ie year name info
    simp only [priorityFor, careerComponent, interestComponent, levelComponent]
    rcases hlk : List.lookup name ie with _ | mc <;>
      by_cases hc : name ∈ cps <;>
      by_cases hl : info.level = targetLevel year <;>
      simp [hlk, hc, hl, List.elem_iff]
  · intro y hy
    have h1 : ¬ y = 1 := by omega
    have h2 : ¬ y = 2 := by omega
    have h3 : ¬ y = 3 := by omega
    simp [targetLevel, h1, h2, h3]

/-- Witness for C6 at a concrete input: a year of 5 (beyond 4) maps to
the senior level. -/
theorem claim_C6_witness : targetLevel 5 = "senior" :=
  claim_C6.2.2.2.2.2.2 5 (by decide)

/-- C7: per keyword at most one reason is recorded, chosen by the
else-if chain with tag match over name substring over description
substring; a course with zero reasons is excluded (every returned
suggestion has at least one match); and in the networking scenario
exactly one reason is recorded, the tag-match one. -/
theorem claim_C7 :
    (∀ (name : String) (info : CourseInfo) (kw : String),
        (keywordReasons name info kw).length ≤ 1)
    ∧ (∀ (name : String) (info : CourseInfo) (kw : String),
        (info.tags.map lowerStr).contains kw = true →
          keywordReasons name info kw = [tagReason kw])
    ∧ (∀ (name : String) (info : CourseInfo) (kw : String),
        (info.tags.map lowerStr).contains kw = false →
          substrOf kw (lowerStr name) = true →
          keywordReasons name info kw = [nameReason kw])
    ∧ (∀ (catalog : Catalog) (interests : String) (s : Suggestion),
        s ∈ suggest_ai_electives catalog interests → 1 ≤ s.match_count)
    ∧ suggest_ai_electives catNet "networking" =
        [{ name := "Computer Networks", level := "junior", credits := 3,
           description := "Intro to networking",
           «matches» := [tagReason "networking"], match_count := 1 }] := by
  refine ⟨?_, ?_, ?_, ?_, by decide⟩
  · intro name info kw
    simp only [keywordReasons]
    split
    · simp
    · split
      · simp
      · split <;> simp
  · intro name info kw h
    simp only [keywordReasons]
    rw [if_pos h]
  · intro name info kw h1 h2
    simp only [keywordReasons]
    rw [if_neg (by rw [h1]; simp), if_pos h2]
  · intro catalog interests s hs
    simp only [suggest_ai_electives] at hs
    rw [mem_sortStable] at hs
    rw [List.mem_filterMap] at hs
    obtain ⟨p, -, hp⟩ := hs
    cases hML : (courseMatches p.1 p.2 (parseKeywords interests)).isEmpty with
    | true =>
      rw [hML] at hp
      simp at hp
    | false =>
      rw [hML] at hp
      simp only [Bool.false_eq_true, if_false, Option.some.injEq] at hp
      subst hp
      have hne : courseMatches p.1 p.2 (parseKeywords interests) ≠ [] := by
        intro hnil
        rw [hnil] at hML
        simp at hML
      have hlen : 0 < (courseMatches p.1 p.2 (parseKeywords interests)).length :=
        List.length_pos.mpr hne
      simpa using hlen

/-- Witness for C7 at a concrete input: the tag-precedence part on the
networking course record. -/
theorem claim_C7_witness :
    keywordReasons "Computer Networks" netInfo "networking" = [tagReason "networking"] :=
  claim_C7.2.1 "Computer Networks" netInfo "networking" (by decide)

/-- Fold-to-sum characterization of the workload accumulation loop. -/
theorem workloadCounts_foldl (catalog : Catalog) :
    ∀ (names : List String) (a b : Nat),
      names.foldl (workloadStep catalog) (a, b)
        = (a + creditSum catalog names, b + difficultySum catalog names)
  | [], a, b => by simp [creditSum, difficultySum]
  | n :: rest, a, b => by
    rcases hlk : List.lookup n catalog with _ | info
    · have hstep : workloadStep catalog (a, b) n = (a, b) := by
        simp [workloadStep, hlk]
      have h1 : creditSum catalog (n :: rest) = creditSum catalog rest := by
        simp [creditSum, List.filterMap_cons, hlk]
      have h2 : difficultySum catalog (n :: rest) = difficultySum catalog rest := by
        simp [difficultySum, List.filter_cons, hlk]
      simp only [List.foldl_cons, hstep]
      rw [workloadCounts_foldl catalog rest a b, h1, h2]
    · have h1 : creditSum catalog (n :: rest) = info.credits + creditSum catalog rest := by
        simp [creditSum, List.filterMap_cons, hlk]
      have h2 : difficultySum catalog (n :: rest)
          = (if difficult_courses.contains n then 2
             else if moderate_courses.contains n then 1 else 0)
            + difficultySum catalog rest := by
        simp [difficultySum, List.filter_cons, hlk]
      have hstep : workloadStep catalog (a, b) n
          = (a + info.credits,
             b + (if difficult_courses.contains n then 2
                  else if moderate_courses.contains n then 1 else 0)) := by
        simp only [workloadStep, hlk]
        by_cases hd : difficult_courses.contains n = true
        · rw [if_pos hd, if_pos hd]
        · rw [if_neg hd, if_neg hd]
          by_cases hm : moderate_courses.contains n = true
          · rw [if_pos hm, if_pos hm]
          · rw [if_neg hm, if_neg hm, Nat.add_zero]
      simp only [List.foldl_cons, hstep]
      rw [workloadCounts_foldl catalog rest, h1, h2]
      simp only [Prod.mk.injEq]
      constructor <;> omega

/-- The greedy selection never decreases the accumulated credit
total. -/
theorem select_total_mono :
    ∀ (l : List Candidate) (total : Nat) (planned : List String),
      total ≤ (selectCourses l total planned).2.1
  | [], _, _ => Nat.le_refl _
  | c :: rest, total, planned => by
    simp only [selectCourses]
    by_cases h18 : total + c.credits ≤ 18
    · rw [if_pos h18]
      by_cases h12 : 12 ≤ total + c.credits
      · rw [if_pos h12]
        dsimp only
        omega
      · rw [if_neg h12]
        dsimp only
        have := select_total_mono rest (total + c.credits) (c.name :: planned)
        omega
    · rw [if_neg h18]
      by_cases h12 : 12 ≤ total
      · rw [if_pos h12]
      · rw [if_neg h12]
        exact select_total_mono rest total planned

/-- The greedy selection keeps the accumulated credit total at most
18 whenever it starts at most 18. -/
theorem select_total_le18 :
    ∀ (l : List Candidate) (total : Nat) (planned : List String),
      total ≤ 18 → (selectCourses l total planned).2.1 ≤ 18
  | [], _, _, h => h
  | c :: rest, total, planned, h => by
    simp only [selectCourses]
    by_cases h18 : total + c.credits ≤ 18
    · rw [if_pos h18]
      by_cases h12 : 12 ≤ total + c.credits
      · rw [if_pos h12]
        dsimp only
        omega
      · rw [if_neg h12]
        dsimp only
        exact select_total_le18 rest (total + c.credits) (c.name :: planned) h18
    · rw [if_neg h18]
      by_cases h12 : 12 ≤ total
      · rw [if_pos h12]
        exact h
      · rw [if_neg h12]
        exact select_total_le18 rest total planned h

/-- Every entry the greedy selection accepts comes from a candidate of
the input list whose credit value is at most 18. -/
theorem select_entries :
    ∀ (l : List Candidate) (total : Nat) (planned : List String) (e : CourseEntry),
      e ∈ (selectCourses l total planned).1 →
      ∃ c, c ∈ l ∧ e = mkEntry c ∧ c.credits ≤ 18
  | [], _, _, e, he => by simp [selectCourses] at he
  | c :: rest, total, planned, e, he => by
    simp only [selectCourses] at he
    by_cases h18 : total + c.credits ≤ 18
    · rw [if_pos h18] at he
      by_cases h12 : 12 ≤ total + c.credits
      · rw [if_pos h12] at he
        dsimp only at he
        rw [List.mem_singleton] at he
        exact ⟨c, List.mem_cons_self _ _, he, by omega⟩
      · rw [if_neg h12] at he
        dsimp only at he
        rcases List.mem_cons.mp he with he' | he'
        · exact ⟨c, List.mem_cons_self _ _, he', by omega⟩
        · obtain ⟨c', hc', hec', hcred⟩ :=
            select_entries rest (total + c.credits) (c.name :: planned) e he'
          exact ⟨c', List.mem_cons_of_mem _ hc', hec', hcred⟩
    · rw [if_neg h18] at he
      by_cases h12 : 12 ≤ total
      · rw [if_pos h12] at he
        simp at he
      · rw [if_neg h12] at he
        obtain ⟨c', hc', hec', hcred⟩ := select_entries rest total planned e he
        exact ⟨c', List.mem_cons_of_mem _ hc', hec', hcred⟩

/-- The greedy selection only grows the `planned` set. -/
theorem select_planned_mono :
    ∀ (l : List Candidate) (total : Nat) (planned : List String) (x : String),
      x ∈ planned → x ∈ (selectCourses l total planned).2.2
  | [], _, _, _, hx => hx
  | c :: rest, total, planned, x, hx => by
    simp only [selectCourses]
    by_cases h18 : total + c.credits ≤ 18
    · rw [if_pos h18]
      by_cases h12 : 12 ≤ total + c.credits
      · rw [if_pos h12]
        exact List.mem_cons_of_mem _ hx
      · rw [if_neg h12]
        dsimp only
        exact select_planned_mono rest (total + c.credits) (c.name :: planned) x
          (List.mem_cons_of_mem _ hx)
    · rw [if_neg h18]
      by_cases h12 : 12 ≤ total
      · rw [if_pos h12]
        exact hx
      · rw [if_neg h12]
        exact select_planned_mono rest total planned x hx

/-- The name of every accepted entry is in the returned `planned`
set. -/
theorem select_entry_planned :
    ∀ (l : List Candidate) (total : Nat) (planned : List String) (e : CourseEntry),
      e ∈ (selectCourses l total planned).1 →
      e.name ∈ (selectCourses l total planned).2.2
  | [], _, _, e, he => by simp [selectCourses] at he
  | c :: rest, total, planned, e, he => by
    simp only [selectCourses] at he ⊢
    by_cases h18 : total + c.credits ≤ 18
    · rw [if_pos h18] at he ⊢
      by_cases h12 : 12 ≤ total + c.credits
      · rw [if_pos h12] at he ⊢
        dsimp only at he ⊢
        rw [List.mem_singleton] at he
        subst he
        exact List.mem_cons_self _ _
      · rw [if_neg h12] at he ⊢
        dsimp only at he ⊢
        rcases List.mem_cons.mp he with he' | he'
        · subst he'
          exact select_planned_mono rest (total + c.credits) (c.name :: planned) _
            (List.mem_cons_self _ _)
        · exact select_entry_planned rest (total + c.credits) (c.name :: planned) e he'
    · rw [if_neg h18] at he ⊢
      by_cases h12 : 12 ≤ total
      · rw [if_pos h12] at he
        simp at he
      · rw [if_neg h12] at he ⊢
        exact select_entry_planned rest total planned e he

/-- When every candidate has positive credits and the selection ends
at total 0, every candidate's credit value alone exceeds 18. -/
theorem select_total_zero :
    ∀ (l : List Candidate) (planned : List String),
      (∀ c ∈ l, 0 < c.credits) →
      (selectCourses l 0 planned).2.1 = 0 →
      ∀ c ∈ l, 18 < c.credits
  | [], _, _, _, c, hc => by simp at hc
  | c :: rest, planned, hpos, h0, c', hc' => by
    simp only [selectCourses] at h0
    by_cases h18 : 0 + c.credits ≤ 18
    · exfalso
      rw [if_pos h18] at h0
      by_cases h12 : 12 ≤ 0 + c.credits
      · rw [if_pos h12] at h0
        dsimp only at h0
        have := hpos c (List.mem_cons_self _ _)
        omega
      · rw [if_neg h12] at h0
        dsimp only at h0
        have hmono := select_total_mono rest (0 + c.credits) (c.name :: planned)
        have := hpos c (List.mem_cons_self _ _)
        omega
    · rw [if_neg h18] at h0
      rw [if_neg (by omega : ¬ 12 ≤ 0)] at h0
      rcases List.mem_cons.mp hc' with rfl | hc''
      · omega
      · exact select_total_zero rest planned
          (fun d hd => hpos d (List.mem_cons_of_mem _ hd)) h0 c' hc''

/-- Unpacking of a successful candidate test: the name is neither
completed nor planned, the course is in the catalog, it is
prerequisite-eligible, and the candidate is its `mkCandidate`
record. -/
theorem candidateFun_some {ctx : Ctx} {planned : List String} {year : Nat}
    {name : String} {c : Candidate}
    (h : candidateFun ctx planned year name = some c) :
    ctx.completed.contains name = false ∧ planned.contains name = false ∧
    ∃ info, List.lookup name ctx.catalog = some info ∧
      isEligible info planned = true ∧ c = mkCandidate ctx year name info := by
  simp only [candidateFun] at h
  by_cases hskip : (ctx.completed.contains name || planned.contains name) = true
  · rw [if_pos hskip] at h
    exact absurd h (by simp)
  · rw [if_neg hskip] at h
    have hsk : (ctx.completed.contains name || planned.contains name) = false := by
      simpa using hskip
    rcases Bool.or_eq_false_iff.mp hsk with ⟨hc1, hc2⟩
    refine ⟨hc1, hc2, ?_⟩
    rcases hlk : List.lookup name ctx.catalog with _ | info
    · rw [hlk] at h
      exact absurd h (by simp)
    · rw [hlk] at h
      dsimp only at h
      by_cases helig : isEligible info planned = true
      · rw [if_pos helig] at h
        exact ⟨info, rfl, helig, (Option.some.inj h).symm⟩
      · rw [if_neg helig] at h
        exact absurd h (by simp)

/-- Unpacking of candidate membership: the candidate's name is not
planned and not completed, and it carries the catalog record's data. -/
theorem mem_candidatesFor {ctx : Ctx} {planned : List String} {year : Nat}
    {c : Candidate} (h : c ∈ candidatesFor ctx planned year) :
    c.name ∉ planned ∧ c.name ∉ ctx.completed ∧
    ∃ info, List.lookup c.name ctx.catalog = some info ∧
      isEligible info planned = true ∧ c = mkCandidate ctx year c.name info := by
  rw [candidatesFor, List.mem_filterMap] at h
  obtain ⟨name, -, hf⟩ := h
  obtain ⟨hcomp, hplan, info, hlk, helig, hc⟩ := candidateFun_some hf
  have hname : c.name = name := by
    rw [hc]
    rfl
  subst hname
  refine ⟨?_, ?_, info, hlk, helig, hc⟩
  · intro hx
    have hx' : planned.contains c.name = true := List.elem_iff.mpr hx
    rw [hplan] at hx'
    exact Bool.noConfusion hx'
  · intro hx
    have hx' : ctx.completed.contains c.name = true := List.elem_iff.mpr hx
    rw [hcomp] at hx'
    exact Bool.noConfusion hx'

/-- C9: the fallback workload estimator is deterministic; its total
credits are the summed credits of the catalog-known input courses; its
difficulty rating is 8 when the summed credits reach 15, else the
truncation of 6 plus half the difficulty counter capped at 10 when
they reach 12, else 5; and the rating always lies between 1 and 10. -/
theorem claim_C9 (catalog : Catalog) (names : List String) :
    (analyze_workload_basic catalog names).total_credits = creditSum catalog names
    ∧ (analyze_workload_basic catalog names).difficulty_rating =
        (if 15 ≤ creditSum catalog names then 8
         else if 12 ≤ creditSum catalog names then
           min 10 (6 + difficultySum catalog names / 2)
         else 5)
    ∧ 1 ≤ (analyze_workload_basic catalog names).difficulty_rating
    ∧ (analyze_workload_basic catalog names).difficulty_rating ≤ 10 := by
  have hwc : workloadCounts catalog names
      = (creditSum catalog names, difficultySum catalog names) := by
    simpa [workloadCounts] using workloadCounts_foldl catalog names 0 0
  have hrat : (analyze_workload_basic catalog names).difficulty_rating
      = min 10 (if 15 ≤ creditSum catalog names then 8
          else if 12 ≤ creditSum catalog names then 6 + difficultySum catalog names / 2
          else 5) := by
    by_cases h15 : 15 ≤ creditSum catalog names
    · simp [analyze_workload_basic, hwc, h15]
    · by_cases h12 : 12 ≤ creditSum catalog names
      · simp [analyze_workload_basic, hwc, h15, h12]
      · simp [analyze_workload_basic, hwc, h15, h12]
  refine ⟨by simp [analyze_workload_basic, hwc], ?_, ?_, ?_⟩ <;>
    rw [hrat] <;>
    by_cases h15 : 15 ≤ creditSum catalog names <;>
    by_cases h12 : 12 ≤ creditSum catalog names <;>
    simp [h15, h12] <;> omega

/-- The credit total of one built term never exceeds 18. -/
theorem buildTerm_total_le18 (ctx : Ctx) (planned : List String) (semester : Nat) :
    (buildTerm ctx planned semester).1.total_credits ≤ 18 := by
  show (selectCourses (sortByPriority (candidatesFor ctx planned (yearOf semester)))
    0 planned).2.1 ≤ 18
  exact select_total_le18 _ 0 planned (by omega)

/-- One built term only grows the `planned` set. -/
theorem buildTerm_planned_mono (ctx : Ctx) (planned : List String) (semester : Nat)
    (x : String) (hx : x ∈ planned) : x ∈ (buildTerm ctx planned semester).2 := by
  show x ∈ (selectCourses (sortByPriority (candidatesFor ctx planned (yearOf semester)))
    0 planned).2.2
  exact select_planned_mono _ 0 planned x hx

/-- Every course assigned in a term is in the `planned` set the term
returns. -/
theorem buildTerm_entry_planned (ctx : Ctx) (planned : List String) (semester : Nat)
    (e : CourseEntry) (he : e ∈ (buildTerm ctx planned semester).1.courses) :
    e.name ∈ (buildTerm ctx planned semester).2 := by
  have he' : e ∈ (selectCourses (sortByPriority (candidatesFor ctx planned (yearOf semester)))
      0 planned).1 := he
  exact select_entry_planned _ 0 planned e he'

/-- Every course assigned in a term comes from an eligible candidate
of that term whose credits fit under the cap. -/
theorem buildTerm_entry_candidate (ctx : Ctx) (planned : List String) (semester : Nat)
    (e : CourseEntry) (he : e ∈ (buildTerm ctx planned semester).1.courses) :
    ∃ c, c ∈ candidatesFor ctx planned (yearOf semester) ∧ e = mkEntry c ∧ c.credits ≤ 18 := by
  have he' : e ∈ (selectCourses (sortByPriority (candidatesFor ctx planned (yearOf semester)))
      0 planned).1 := he
  obtain ⟨c, hc, hec, hcred⟩ := select_entries _ 0 planned e he'
  exact ⟨c, (mem_sortStable _ c _).mp hc, hec, hcred⟩

/-- A course assigned in a term was neither planned before the term
nor completed. -/
theorem buildTerm_entry_fresh (ctx : Ctx) (planned : List String) (semester : Nat)
    (e : CourseEntry) (he : e ∈ (buildTerm ctx planned semester).1.courses) :
    e.name ∉ planned ∧ e.name ∉ ctx.completed := by
  obtain ⟨c, hc, hec, -⟩ := buildTerm_entry_candidate ctx planned semester e he
  obtain ⟨h1, h2, -⟩ := mem_candidatesFor hc
  subst hec
  exact ⟨h1, h2⟩

/-- A term with no eligible candidates is empty with zero credits. -/
theorem buildTerm_count_zero (ctx : Ctx) (planned : List String) (semester : Nat)
    (h : (buildTerm ctx planned semester).1.available_courses_count = 0) :
    (buildTerm ctx planned semester).1.courses = []
    ∧ (buildTerm ctx planned semester).1.total_credits = 0 := by
  have hav : candidatesFor ctx planned (yearOf semester) = [] := List.length_eq_zero.mp h
  constructor
  · show (selectCourses (sortByPriority (candidatesFor ctx planned (yearOf semester)))
      0 planned).1 = []
    rw [hav]
    rfl
  · show (selectCourses (sortByPriority (candidatesFor ctx planned (yearOf semester)))
      0 planned).2.1 = 0
    rw [hav]
    rfl

/-- The semester loop emits exactly as many terms as requested. -/
theorem scheduleAux_length (ctx : Ctx) :
    ∀ (n s : Nat) (p : List String), (scheduleAux ctx n s p).length = n
  | 0, _, _ => rfl
  | n + 1, s, p => by
    simp only [scheduleAux, List.length_cons, scheduleAux_length ctx n (s + 1) _]

/-- Every emitted term is the first component of some `buildTerm`
call. -/
theorem mem_scheduleAux (ctx : Ctx) :
    ∀ (n s : Nat) (p : List String) (t : TermPlan),
      t ∈ scheduleAux ctx n s p → ∃ q m, t = (buildTerm ctx q m).1
  | 0, _, _, t, ht => by simp [scheduleAux] at ht
  | n + 1, s, p, t, ht => by
    simp only [scheduleAux] at ht
    rcases List.mem_cons.mp ht with rfl | ht'
    · exact ⟨p, s, rfl⟩
    · exact mem_scheduleAux ctx n (s + 1) _ t ht'

/-- No course assigned anywhere in the remaining loop was in the
`planned` set the loop started from. -/
theorem scheduleAux_not_in_planned (ctx : Ctx) :
    ∀ (n s : Nat) (p : List String) (t : TermPlan),
      t ∈ scheduleAux ctx n s p → ∀ e ∈ t.courses, e.name ∉ p
  | 0, _, _, t, ht => by simp [scheduleAux] at ht
  | n + 1, s, p, t, ht => by
    simp only [scheduleAux] at ht
    rcases List.mem_cons.mp ht with rfl | ht'
    · intro e he
      exact (buildTerm_entry_fresh ctx p s e he).1
    · intro e he hp
      exact scheduleAux_not_in_planned ctx n (s + 1) _ t ht' e he
        (buildTerm_planned_mono ctx p s e.name hp)

/-- Across the emitted terms, no assigned course name reappears in a
later term. -/
theorem scheduleAux_pairwise (ctx : Ctx) :
    ∀ (n s : Nat) (p : List String),
      List.Pairwise (fun t1 t2 => ∀ nm ∈ t1.courses.map CourseEntry.name,
        nm ∉ t2.courses.map CourseEntry.name) (scheduleAux ctx n s p)
  | 0, _, _ => List.Pairwise.nil
  | n + 1, s, p => by
    simp only [scheduleAux]
    refine List.Pairwise.cons ?_ (scheduleAux_pairwise ctx n (s + 1) _)
    intro t' ht' nm hnm hnm'
    rw [List.mem_map] at hnm hnm'
    obtain ⟨e, he, hee⟩ := hnm
    obtain ⟨e', he', hee'⟩ := hnm'
    have h1 : nm ∈ (buildTerm ctx p s).2 := by
      rw [← hee]
      exact buildTerm_entry_planned ctx p s e he
    have h2 := scheduleAux_not_in_planned ctx n (s + 1) _ t' ht' e' he'
    rw [hee'] at h2
    exact h2 h1

/-- Replay of the loop: the k-th emitted term (0-based) is the
`buildTerm` of the replayed state. -/
theorem scheduleAux_get (ctx : Ctx) :
    ∀ (n m k : Nat) (hk : k < (scheduleAux ctx n (m + 1) (plannedAfter ctx m)).length),
      (scheduleAux ctx n (m + 1) (plannedAfter ctx m)).get ⟨k, hk⟩
        = (buildTerm ctx (plannedAfter ctx (m + k)) (m + k + 1)).1
  | 0, m, k, hk => by
    rw [scheduleAux_length] at hk
    exact absurd hk (by omega)
  | n + 1, m, k, hk => by
    cases k with
    | zero => rfl
    | succ j =>
      have hk' : j < (scheduleAux ctx n ((m + 1) + 1) (plannedAfter ctx (m + 1))).length := by
        rw [scheduleAux_length] at hk ⊢
        omega
      have heq : (scheduleAux ctx (n + 1) (m + 1) (plannedAfter ctx m)).get ⟨j + 1, hk⟩
          = (scheduleAux ctx n ((m + 1) + 1) (plannedAfter ctx (m + 1))).get ⟨j, hk'⟩ := rfl
      rw [heq, scheduleAux_get ctx n (m + 1) j hk']
      rw [show m + 1 + j = m + (j + 1) from by omega]

/-- C1: no course name is assigned to two different terms, and no
completed course name is assigned to any term. -/
theorem claim_C1 (catalog : Catalog) (career_paths : CareerPaths)
    (completed all_courses : List String) (career_path : Option String)
    (interests : String) (N : Nat) :
    List.Pairwise (fun t1 t2 => ∀ nm ∈ t1.courses.map CourseEntry.name,
        nm ∉ t2.courses.map CourseEntry.name)
      (generate_semester_schedule catalog career_paths completed all_courses
        career_path interests N)
    ∧ ∀ t ∈ generate_semester_schedule catalog career_paths completed all_courses
        career_path interests N,
        ∀ nm ∈ t.courses.map CourseEntry.name, nm ∉ completed := by
  constructor
  · exact scheduleAux_pairwise
      (mkCtx catalog career_paths completed all_courses career_path interests) N 1 completed
  · intro t ht nm hnm
    rw [List.mem_map] at hnm
    obtain ⟨e, he, hee⟩ := hnm
    have h := scheduleAux_not_in_planned
      (mkCtx catalog career_paths completed all_courses career_path interests)
      N 1 completed t ht e he
    rw [← hee]
    exact h

/-- Witness for C1 at a concrete input: with A completed, the single
term assigns B, and B is not in the completed list. -/
theorem claim_C1_witness : ("B" : String) ∉ (["A"] : List String) :=
  (claim_C1 catAB [] ["A"] ["A", "B"] none "" 1).2 termB1 (by decide) "B" (by decide)

/-- C2: every term's credit total is at most 18, and the greedy
selector skips any candidate whose credits added to the accumulated
total would exceed 18. -/
theorem claim_C2 (catalog : Catalog) (career_paths : CareerPaths)
    (completed all_courses : List String) (career_path : Option String)
    (interests : String) (N : Nat) :
    (∀ t ∈ generate_semester_schedule catalog career_paths completed all_courses
        career_path interests N,
      t.total_credits ≤ 18)
    ∧ ∀ (c : Candidate) (rest : List Candidate) (total : Nat) (planned : List String),
        18 < total + c.credits → total < 12 →
        selectCourses (c :: rest) total planned = selectCourses rest total planned := by
  constructor
  · intro t ht
    obtain ⟨q, m, rfl⟩ := mem_scheduleAux
      (mkCtx catalog career_paths completed all_courses career_path interests)
      N 1 completed t ht
    exact buildTerm_total_le18 _ _ _
  · intro c rest total planned h18 h12
    simp only [selectCourses]
    rw [if_neg (by omega), if_neg (by omega)]

/-- Witness for C2 at a concrete input: the one-term schedule over
`catAB` with only A offered has 3 total credits. -/
theorem claim_C2_witness : termA1.total_credits ≤ 18 :=
  (claim_C2 catAB [] [] ["A"] none "" 1).1 termA1 (by decide)

/-- C4: the schedule has exactly N terms; the k-th (0-based) has
semester index k+1, year k/2+1, and the alternating Fall/Spring label
starting with Fall; a term with zero eligible candidates is empty with
zero credits. -/
theorem claim_C4 (catalog : Catalog) (career_paths : CareerPaths)
    (completed all_courses : List String) (career_path : Option String)
    (interests : String) (N : Nat) (hN : 1 ≤ N) :
    (generate_semester_schedule catalog career_paths completed all_courses
      career_path interests N).length = N
    ∧ ∀ (k : Nat) (hk : k < (generate_semester_schedule catalog career_paths completed
        all_courses career_path interests N).length),
        ((generate_semester_schedule catalog career_paths completed all_courses
          career_path interests N).get ⟨k, hk⟩).semester = k + 1
        ∧ ((generate_semester_schedule catalog career_paths completed all_courses
          career_path interests N).get ⟨k, hk⟩).year = k / 2 + 1
        ∧ ((generate_semester_schedule catalog career_paths completed all_courses
          career_path interests N).get ⟨k, hk⟩).term
            = (if k % 2 = 0 then "Fall" else "Spring")
        ∧ (((generate_semester_schedule catalog career_paths completed all_courses
            career_path interests N).get ⟨k, hk⟩).available_courses_count = 0 →
          ((generate_semester_schedule catalog career_paths completed all_courses
            career_path interests N).get ⟨k, hk⟩).courses = []
          ∧ ((generate_semester_schedule catalog career_paths completed all_courses
            career_path interests N).get ⟨k, hk⟩).total_credits = 0) := by
  constructor
  · exact scheduleAux_length
      (mkCtx catalog career_paths completed all_courses career_path interests) N 1 completed
  · intro k hk
    have hget := scheduleAux_get
      (mkCtx catalog career_paths completed all_courses career_path interests) N 0 k hk
    rw [show (0 : Nat) + k = k from by omega] at hget
    have hget' : (generate_semester_schedule catalog career_paths completed all_courses
          career_path interests N).get ⟨k, hk⟩
        = (buildTerm (mkCtx catalog career_paths completed all_courses career_path interests)
            (plannedAfter (mkCtx catalog career_paths completed all_courses career_path interests) k)
            (k + 1)).1 := hget
    rw [hget']
    refine ⟨rfl, ?_, ?_, ?_⟩
    · show yearOf (k + 1) = k / 2 + 1
      simp [yearOf]
    · show termLabel (k + 1) = _
      simp [termLabel]
    · exact buildTerm_count_zero _ _ _

/-- Witness for C4 at a concrete input: the second term of a two-term
schedule carries the Spring label. -/
theorem claim_C4_witness :
    ((generate_semester_schedule catAB [] [] ["A", "B"] none "" 2).get ⟨1, by decide⟩).term
      = (if 1 % 2 = 0 then "Fall" else "Spring") :=
  ((claim_C4 catAB [] [] ["A", "B"] none "" 2 (by decide)).2 1 (by decide)).2.2.1

/-- C3: with positive catalog credits, a term's credit total is 0 only
if it had no eligible candidates or every eligible candidate's credit
value alone exceeds 18. -/
theorem claim_C3 (catalog : Catalog) (career_paths : CareerPaths)
    (completed all_courses : List String) (career_path : Option String)
    (interests : String) (N : Nat)
    (hpos : ∀ pr ∈ catalog, 0 < pr.2.credits) :
    ∀ (k : Nat) (hk : k < (generate_semester_schedule catalog career_paths completed
        all_courses career_path interests N).length),
      ((generate_semester_schedule catalog career_paths completed all_courses
        career_path interests N).get ⟨k, hk⟩).total_credits = 0 →
      ((generate_semester_schedule catalog career_paths completed all_courses
        career_path interests N).get ⟨k, hk⟩).available_courses_count = 0
      ∨ ∀ c ∈ candidatesFor
          (mkCtx catalog career_paths completed all_courses career_path interests)
          (plannedAfter (mkCtx catalog career_paths completed all_courses career_path interests) k)
          (yearOf (k + 1)),
          18 < c.credits := by
  intro k hk h0
  have hget := scheduleAux_get
    (mkCtx catalog career_paths completed all_courses career_path interests) N 0 k hk
  rw [show (0 : Nat) + k = k from by omega] at hget
  have hget' : (generate_semester_schedule catalog career_paths completed all_courses
        career_path interests N).get ⟨k, hk⟩
      = (buildTerm (mkCtx catalog career_paths completed all_courses career_path interests)
          (plannedAfter (mkCtx catalog career_paths completed all_courses career_path interests) k)
          (k + 1)).1 := hget
  rw [hget'] at h0
  right
  intro c hc
  have hposc : ∀ d ∈ sortByPriority (candidatesFor
      (mkCtx catalog career_paths completed all_courses career_path interests)
      (plannedAfter (mkCtx catalog career_paths completed all_courses career_path interests) k)
      (yearOf (k + 1))), 0 < d.credits := by
    intro d hd
    obtain ⟨-, -, info, hlk, -, hdc⟩ := mem_candidatesFor ((mem_sortStable _ d _).mp hd)
    have hmem := lookup_mem hlk
    have hp := hpos _ hmem
    rw [hdc]
    exact hp
  have h0' : (selectCourses (sortByPriority (candidatesFor
      (mkCtx catalog career_paths completed all_courses career_path interests)
      (plannedAfter (mkCtx catalog career_paths completed all_courses career_path interests) k)
      (yearOf (k + 1)))) 0
      (plannedAfter (mkCtx catalog career_paths completed all_courses career_path interests) k)).2.1
      = 0 := h0
  exact select_total_zero _ _ hposc h0' c ((mem_sortStable _ c _).mpr hc)

/-- Witness for C3 at a concrete input: one offered 20-credit course
gives a zero-credit term whose only candidate exceeds 18 credits. -/
theorem claim_C3_witness :
    ((generate_semester_schedule catMix [] [] ["X"] none "" 1).get
        ⟨0, by decide⟩).available_courses_count = 0
    ∨ ∀ c ∈ candidatesFor (mkCtx catMix [] [] ["X"] none "")
        (plannedAfter (mkCtx catMix [] [] ["X"] none "") 0) (yearOf 1),
        18 < c.credits :=
  claim_C3 catMix [] [] ["X"] none "" 1 (by decide) 0 (by decide) (by decide)

/-- C10: a course whose catalog credit value exceeds 18 is never
assigned to any term. -/
theorem claim_C10 (catalog : Catalog) (career_paths : CareerPaths)
    (completed all_courses : List String) (career_path : Option String)
    (interests : String) (N : Nat) (name : String) (info : CourseInfo)
    (hlk : List.lookup name catalog = some info) (hbig : 18 < info.credits) :
    ∀ t ∈ generate_semester_schedule catalog career_paths completed all_courses
        career_path interests N,
      ∀ e ∈ t.courses, e.name ≠ name := by
  intro t ht e he heq
  obtain ⟨q, m, rfl⟩ := mem_scheduleAux
    (mkCtx catalog career_paths completed all_courses career_path interests)
    N 1 completed t ht
  obtain ⟨c, hc, hec, hcred⟩ := buildTerm_entry_candidate _ _ _ e he
  obtain ⟨-, -, info', hlk', -, hcc⟩ := mem_candidatesFor hc
  have hcname : c.name = name := by
    subst hec
    exact heq
  rw [hcname] at hlk'
  have hlk'' : List.lookup name catalog = some info' := hlk'
  rw [hlk] at hlk''
  have hii : info' = info := (Option.some.inj hlk'').symm
  subst hii
  rw [hcc] at hcred
  have hle : info'.credits ≤ 18 := hcred
  omega

/-- Witness for C10 at a concrete input: with the 20-credit course X
offered, the assigned course A is not X. -/
theorem claim_C10_witness : entryA.name ≠ "X" :=
  claim_C10 catMix [] [] ["A", "X"] none "" 1 "X"
    { level := "senior", credits := 20, description := "x" }
    (by decide) (by decide) termA1X (by decide) entryA (by decide)

/-- A candidate test does not depend on the `careerGiven` flag once
the career-priority list is empty. -/
theorem candidateFun_careerGiven (ctx : Ctx) (b : Bool) (h : ctx.career_priorities = [])
    (planned : List String) (year : Nat) (name : String) :
    candidateFun { ctx with careerGiven := b } planned year name
      = candidateFun ctx planned year name := by
  have hnil : ([] : List String).contains name = false := rfl
  simp only [candidateFun, mkCandidate, priorityFor]
  rw [h, hnil, Bool.and_false, Bool.and_false]

/-- A built term does not depend on the `careerGiven` flag once the
career-priority list is empty. -/
theorem buildTerm_careerGiven (ctx : Ctx) (b : Bool) (h : ctx.career_priorities = [])
    (planned : List String) (s : Nat) :
    buildTerm { ctx with careerGiven := b } planned s = buildTerm ctx planned s := by
  have hcf : candidatesFor { ctx with careerGiven := b } planned (yearOf s)
      = candidatesFor ctx planned (yearOf s) := by
    simp only [candidatesFor]
    have hfun : candidateFun { ctx with careerGiven := b } planned (yearOf s)
        = candidateFun ctx planned (yearOf s) := by
      funext nm
      exact candidateFun_careerGiven ctx b h planned (yearOf s) nm
    rw [hfun]
  simp only [buildTerm, hcf]

/-- The whole loop does not depend on the `careerGiven` flag once the
career-priority list is empty. -/
theorem scheduleAux_careerGiven (ctx : Ctx) (b : Bool) (h : ctx.career_priorities = []) :
    ∀ (n s : Nat) (p : List String),
      scheduleAux { ctx with careerGiven := b } n s p = scheduleAux ctx n s p
  | 0, _, _ => rfl
  | n + 1, s, p => by
    simp only [scheduleAux]
    rw [buildTerm_careerGiven ctx b h p s,
      scheduleAux_careerGiven ctx b h n (s + 1) (buildTerm ctx p s).2]

/-- C8 as amended: a non-empty career path whose lowercase name is not
a key of the career-path table raises no error and is silently treated
as the absence of career weighting: the schedule equals the one
computed with no career path at all. -/
theorem claim_C8 (catalog : Catalog) (career_paths : CareerPaths)
    (completed all_courses : List String) (cp : String) (interests : String) (N : Nat)
    (hne : cp.data.isEmpty = false)
    (hunknown : List.lookup (lowerStr cp) career_paths = none) :
    generate_semester_schedule catalog career_paths completed all_courses (some cp) interests N
      = generate_semester_schedule catalog career_paths completed all_courses none interests N := by
  have hpr : careerPrioritiesFor career_paths (some cp) = [] := by
    simp [careerPrioritiesFor, hne, hunknown]
  have hpr0 : careerPrioritiesFor career_paths none = [] := rfl
  have hctx : mkCtx catalog career_paths completed all_courses (some cp) interests
      = { mkCtx catalog career_paths completed all_courses none interests with
          careerGiven := careerTruthy (some cp) } := by
    simp [mkCtx, hpr, hpr0]
  simp only [generate_semester_schedule]
  rw [hctx]
  exact scheduleAux_careerGiven
    (mkCtx catalog career_paths completed all_courses none interests)
    (careerTruthy (some cp)) rfl N 1 completed

/-- Counterexample to C8 as stated: at a concrete input, an unknown
career-path key produces no error of any kind; the engine returns the
very schedule it returns with no career path, i.e. the unknown key is
silently treated as the absence of career weighting. -/
theorem claim_C8_counterexample :
    generate_semester_schedule catAB demoPaths [] ["A", "B"] (some "quantum") "" 2
      = generate_semester_schedule catAB demoPaths [] ["A", "B"] none "" 2
    ∧ (generate_semester_schedule catAB demoPaths [] ["A", "B"] (some "quantum") "" 2).length
        = 2 := by
  constructor
  · decide
  · decide

/-- Witness for the amended C8 at a concrete input. -/
theorem claim_C8_witness :
    generate_semester_schedule catAB demoPaths [] ["A", "B"] (some "ml") "" 1
      = generate_semester_schedule catAB demoPaths [] ["A", "B"] none "" 1 :=
  claim_C8 catAB demoPaths [] ["A", "B"] "ml" "" 1 (by decide) (by decide)

end EngAI
